import Mathlib

/-!
Verification of the life-analytics backend (FastAPI + SQLAlchemy + small ML
helpers).  The Python source is shallowly embedded: machine floats are
modelled as exact rationals, Python `round` as round-half-to-even on ℚ,
Python `int()` as truncation toward zero, database states as lists of rows,
and library calls whose numerics live outside the repository (scipy's
`pearsonr`, sklearn's `KMeans`, bcrypt hashing) as explicit function
parameters.  Every definition mirrors one function of the source tree.
-/

namespace LifeAnalytics

/-- Python `round` to an integer: round half to even (banker's rounding),
acting on an exact rational. -/
def pyRoundInt (q : ℚ) : ℤ :=
  let f := ⌊q⌋
  let r := q - (f : ℚ)
  if r < 1/2 then f
  else if 1/2 < r then f + 1
  else if f % 2 = 0 then f else f + 1

/-- Python `round(q, n)`: round half to even at `n` decimal digits. -/
def pyRound (q : ℚ) (n : ℕ) : ℚ :=
  (pyRoundInt (q * 10 ^ n) : ℚ) / 10 ^ n

/-- Python `int()` on a rational: truncation toward zero. -/
def pyInt (q : ℚ) : ℤ :=
  if 0 ≤ q then ⌊q⌋ else -⌊-q⌋

/-- `np.mean` / `sum(l)/len(l)` on a list of rationals. -/
def mean (xs : List ℚ) : ℚ := xs.sum / xs.length

/-- `max lo (min hi x)`, the clamping pattern `max(lo, min(hi, x))` of the
source. -/
def clamp (lo hi x : ℚ) : ℚ := max lo (min hi x)

/-! ## Prediction helper (`backend/ml/predict.py`)

Rows handed to `train_and_predict` come straight from the `entries` table,
whose numeric columns are nullable, so both fields are `Option`s here. -/

/-- A row as seen by `train_and_predict`: possibly-null sleep and
productivity columns. -/
structure MLEntry where
  sleep_hours : Option ℚ
  productivity : Option ℚ
deriving DecidableEq, Repr

/-- The JSON object returned by `train_and_predict`. -/
structure PredictResult where
  predicted_productivity : ℚ
  mode : String
  confidence : ℤ
deriving DecidableEq, Repr

/-- The filtered `(sleep_hours, productivity)` pairs: rows where both fields
are present (`is not None`). -/
def mlPairs (entries : List MLEntry) : List (ℚ × ℚ) :=
  entries.filterMap fun e =>
    match e.sleep_hours, e.productivity with
    | some s, some p => some (s, p)
    | _, _ => none

/-- Sum of the x components of the data. -/
def sumX (d : List (ℚ × ℚ)) : ℚ := (d.map Prod.fst).sum

/-- Sum of the y components of the data. -/
def sumY (d : List (ℚ × ℚ)) : ℚ := (d.map Prod.snd).sum

/-- Sum of squared x components. -/
def sumXX (d : List (ℚ × ℚ)) : ℚ := (d.map fun p => p.1 ^ 2).sum

/-- Sum of the products x·y. -/
def sumXY (d : List (ℚ × ℚ)) : ℚ := (d.map fun p => p.1 * p.2).sum

/-- Sum of squared y components. -/
def sumYY (d : List (ℚ × ℚ)) : ℚ := (d.map fun p => p.2 ^ 2).sum

/-- Mean of the x components. -/
def xbar (d : List (ℚ × ℚ)) : ℚ := sumX d / d.length

/-- Mean of the y components. -/
def ybar (d : List (ℚ × ℚ)) : ℚ := sumY d / d.length

/-- Centered second moment of x. -/
def cSxx (d : List (ℚ × ℚ)) : ℚ := (d.map fun p => (p.1 - xbar d) ^ 2).sum

/-- Centered mixed moment of x and y. -/
def cSxy (d : List (ℚ × ℚ)) : ℚ :=
  (d.map fun p => (p.1 - xbar d) * (p.2 - ybar d)).sum

/-- Slope of the ordinary-least-squares line fitted by
`sklearn.linear_model.LinearRegression` on one feature: the centered
moment ratio, with the minimum-norm convention (slope 0) when all x values
coincide. -/
def olsSlope (d : List (ℚ × ℚ)) : ℚ :=
  if cSxx d = 0 then 0 else cSxy d / cSxx d

/-- Intercept of the fitted least-squares line. -/
def olsIntercept (d : List (ℚ × ℚ)) : ℚ := ybar d - olsSlope d * xbar d

/-- Value of the fitted least-squares line at `x` (the model's
`predict([[x]])[0]`). -/
def olsPredict (d : List (ℚ × ℚ)) (x : ℚ) : ℚ :=
  olsIntercept d + olsSlope d * x

/-- Centered second moment of y. -/
def cSyy (d : List (ℚ × ℚ)) : ℚ := (d.map fun p => (p.2 - ybar d) ^ 2).sum

/-- Residual sum of squares of the affine predictor `y = a + b·x` on the
data: the quantity ordinary least squares minimizes. -/
def rss (d : List (ℚ × ℚ)) (a b : ℚ) : ℚ :=
  (d.map fun p => (p.2 - (a + b * p.1)) ^ 2).sum

/-- `train_and_predict` of `backend/ml/predict.py`: no-data fallback,
average fallback for fewer than 4 pairs, else least-squares regression with
the prediction clamped to [1, 10]; predictions are rounded to 2 decimals. -/
def train_and_predict (entries : List MLEntry) (sleep_hours : ℚ) :
    PredictResult :=
  let data := mlPairs entries
  if data.length = 0 then
    { predicted_productivity := 5, mode := "no-data", confidence := 20 }
  else if data.length < 4 then
    { predicted_productivity := pyRound (mean (data.map Prod.snd)) 2
      mode := "average"
      confidence := min 60 (30 + (data.length : ℤ) * 10) }
  else
    { predicted_productivity :=
        pyRound (clamp 1 10 (olsPredict data sleep_hours)) 2
      mode := "regression"
      confidence := 75 }

/-! ## Data model (`backend/database.py`) and analytics (`backend/main.py`)

Entries created through `POST /add-entry` always carry all four fields
(the request schema requires them), which is what every analytics endpoint
assumes, so the analytics row type has plain fields. -/

/-- A calendar date as stored in the `date` column (Python `datetime.date`). -/
structure PyDate where
  year : ℕ
  month : ℕ
  day : ℕ
deriving DecidableEq, Repr

/-- A row of the `entries` table as the analytics endpoints consume it. -/
structure Entry where
  id : ℕ
  date : PyDate
  sleep_hours : ℚ
  mood : ℤ
  productivity : ℤ
deriving DecidableEq, Repr

/-- `np.mean([e.sleep_hours for e in entries])`. -/
def avgSleep (es : List Entry) : ℚ := mean (es.map (·.sleep_hours))

/-- `np.mean([e.productivity for e in entries])`. -/
def avgProd (es : List Entry) : ℚ := mean (es.map fun e => (e.productivity : ℚ))

/-- `np.mean([e.mood for e in entries])`. -/
def avgMood (es : List Entry) : ℚ := mean (es.map fun e => (e.mood : ℚ))

/-- The JSON object returned by `GET /analysis/burnout-score`. -/
structure BurnoutScoreResult where
  score : ℤ
  level : String
  message : String
deriving DecidableEq, Repr

/-- The raw burnout-score formula as §4.2 of the spec words it:
`clamp(0, 100, (10 − avg_sleep) × 8 + (10 − avg_prod) × 6)`, with no
conversion to an integer.  Stated from the spec, to be compared with the
code's `burnout_score`. -/
def burnoutScoreSpec (es : List Entry) : ℚ :=
  clamp 0 100 ((10 - avgSleep es) * 8 + (10 - avgProd es) * 6)

/-- `burnout_score` of `backend/main.py`: the clamped deficit formula passed
through Python `int()`, then fixed level thresholds and messages. -/
def burnout_score (es : List Entry) : BurnoutScoreResult :=
  if es = [] then
    { score := 0, level := "Unknown", message := "Not enough data" }
  else
    let score :=
      pyInt (max 0 (min 100 ((10 - avgSleep es) * 8 + (10 - avgProd es) * 6)))
    if 70 < score then
      { score := score, level := "High"
        message := "You're at high risk of burnout. Consider rest and workload adjustment." }
    else if 40 < score then
      { score := score, level := "Moderate"
        message := "Some signs of fatigue detected. Small changes could help." }
    else
      { score := score, level := "Low"
        message := "Burnout risk is low. You're managing things well." }

/-- One templated observation of `ai_insights`; each constructor stands for
one fixed message template of the source, carrying the rounded averages the
template interpolates. -/
inductive Insight where
  | notEnoughData
  | lowSleep (avg : ℚ)
  | goodSleep (avg : ℚ)
  | burnoutPattern
  | strongProductivity
  | lowProductivity
  | moodProductivityLink
  | closing
deriving DecidableEq, Repr

/-- `ai_insights` of `backend/main.py` (`GET /ai/insights`): fixed
"not enough data" message below 3 entries, else threshold-triggered
observations plus the constant closing message. -/
def ai_insights (es : List Entry) : List Insight :=
  if es.length < 3 then [.notEnoughData]
  else
    let sleep_vals := es.map (·.sleep_hours)
    let prod_vals := es.map fun e => (e.productivity : ℚ)
    let avg_sleep := pyRound (avgSleep es) 2
    let avg_prod := pyRound (avgProd es) 2
    let avg_mood := pyRound (avgMood es) 2
    let recent_sleep := mean (sleep_vals.drop (sleep_vals.length - 3))
    let recent_prod := mean (prod_vals.drop (prod_vals.length - 3))
    (if avg_sleep < 6 then [.lowSleep avg_sleep]
     else if 7 ≤ avg_sleep then [.goodSleep avg_sleep] else []) ++
    (if recent_sleep < avg_sleep ∧ recent_prod < avg_prod
     then [.burnoutPattern] else []) ++
    (if 7 ≤ avg_prod then [.strongProductivity]
     else if avg_prod < 5 then [.lowProductivity] else []) ++
    (if 6 ≤ avg_mood ∧ 6 ≤ avg_prod then [.moodProductivityLink] else []) ++
    [.closing]

/-- The JSON object returned by `GET /analysis/mood-productivity-correlation`. -/
structure CorrResult where
  correlation : Option ℚ
  strength : Option String
  message : String
deriving DecidableEq, Repr

/-- `mood_productivity_correlation` of `backend/main.py`.  The Pearson
coefficient is computed by `scipy.stats.pearsonr`, a library routine outside
the repository, so it enters as the parameter `pearson`. -/
def mood_productivity_correlation (pearson : List ℤ → List ℤ → ℚ)
    (es : List Entry) : CorrResult :=
  if es.length < 3 then
    { correlation := none, strength := none
      message := "Not enough data to analyze mood and productivity relationship." }
  else
    let corr := pearson (es.map (·.mood)) (es.map (·.productivity))
    let strength :=
      if 6/10 < |corr| then "Strong"
      else if 3/10 < |corr| then "Moderate"
      else "Weak"
    { correlation := some (pyRound corr 2), strength := some strength
      message := strength ++ " relationship between mood and productivity detected." }

/-- `recommendations` of `backend/main.py` (`GET /analysis/recommendations`),
with the source's fixed message strings. -/
def recommendations (es : List Entry) : List String :=
  if es.length < 3 then
    ["Track your sleep, mood, and productivity for a few more days to unlock personalized recommendations."]
  else
    let avg_sleep := avgSleep es
    let avg_prod := avgProd es
    let recent_sleep := mean ((es.map (·.sleep_hours)).drop (es.length - 3))
    let recs :=
      (if avg_sleep < 6 then
        ["You’ve been sleeping less than ideal. Try going to bed 30–45 minutes earlier for the next few days and see how your energy responds."]
       else []) ++
      (if avg_prod < 5 then
        ["Productivity has been lower recently. Consider breaking tasks into smaller chunks or scheduling demanding work during your most alert hours."]
       else []) ++
      (if recent_sleep < avg_sleep then
        ["Your sleep has dipped recently compared to your average. This could explain recent fatigue — prioritizing rest now may prevent burnout later."]
       else [])
    if recs = [] then
      ["Your habits look balanced overall. Focus on maintaining consistency rather than pushing harder."]
    else recs

/-- `delete_entry` of `backend/main.py` (`DELETE /entries/{id}`): look up the
first row with the given id, delete it when found, and acknowledge either
way.  Returns the response message and the table afterwards. -/
def delete_entry (st : List Entry) (entry_id : ℕ) : String × List Entry :=
  match st.find? fun e => e.id == entry_id with
  | some _ => ("Entry deleted", st.eraseP fun e => e.id == entry_id)
  | none => ("Entry deleted", st)

/-! ## Best sleep range (`best_sleep_range` of `backend/main.py`) -/

/-- One step of filling the `defaultdict(list)`: append `p` to the bucket of
key `k`, creating the bucket at the end on first sight of the key
(Python dict insertion order). -/
def addBucket (bs : List (ℚ × List ℤ)) (k : ℚ) (p : ℤ) : List (ℚ × List ℤ) :=
  match bs with
  | [] => [(k, [p])]
  | (k', ps) :: rest =>
    if k' = k then (k', ps ++ [p]) :: rest
    else (k', ps) :: addBucket rest k p

/-- The buckets `buckets[round(e.sleep_hours, 1)].append(e.productivity)`
builds, in insertion order. -/
def buildBuckets (es : List Entry) : List (ℚ × List ℤ) :=
  es.foldl (fun bs e => addBucket bs (pyRound e.sleep_hours 1) e.productivity) []

/-- Python `max(iterable, key=f)`: the running maximum is replaced only when
a strictly larger key appears, so the first maximum wins. -/
def pyMaxBy {α : Type} (f : α → ℚ) : List α → Option α
  | [] => none
  | x :: xs => some (xs.foldl (fun cur y => if f cur < f y then y else cur) x)

/-- Mean productivity of one bucket: `sum(x[1]) / len(x[1])`. -/
def bmean (b : ℚ × List ℤ) : ℚ := (b.2.map fun z => (z : ℚ)).sum / b.2.length

/-- The JSON object returned by `GET /analysis/best-sleep-range` (the bucket
key of the `"... hours"` string, and the rounded bucket mean). -/
structure SleepRangeResult where
  best_sleep_range : ℚ
  average_productivity : ℚ
deriving DecidableEq, Repr

/-- `best_sleep_range` of `backend/main.py`: empty response on no entries,
else the bucket of highest mean productivity under Python `max`. -/
def best_sleep_range (es : List Entry) : Option SleepRangeResult :=
  if es = [] then none
  else
    match pyMaxBy bmean (buildBuckets es) with
    | none => none
    | some b =>
      some { best_sleep_range := b.1
             average_productivity := pyRound (bmean b) 2 }

/-- The returned element is the first maximum of `f` on `l`: everything
before it is strictly smaller, everything after it no larger. -/
def IsFirstMaxBy {α : Type} (f : α → ℚ) (l : List α) (r : α) : Prop :=
  ∃ l₁ l₂, l = l₁ ++ r :: l₂ ∧ (∀ y ∈ l₁, f y < f r) ∧ ∀ y ∈ l₂, f y ≤ f r

/-! ## CSV export (`export_csv` of `backend/main.py`)

`csv.writer` renders each cell as text, joins cells with commas and
terminates every row with `"\r\n"`.  Dates render as `YYYY-MM-DD` (Python
`str` on a `datetime.date`); the integer cells render in decimal.  The
rational standing in for the float cell is rendered as an injective
`num/den` text, the exact-arithmetic counterpart of Python's float `repr`.
None of the cell texts contains a comma, a quote or a line break, so the
writer never quotes. -/

/-- The character of one decimal digit. -/
def digitChar : ℕ → Char
  | 0 => '0'
  | 1 => '1'
  | 2 => '2'
  | 3 => '3'
  | 4 => '4'
  | 5 => '5'
  | 6 => '6'
  | 7 => '7'
  | 8 => '8'
  | 9 => '9'
  | _ => '?'

/-- The decimal digit of one character. -/
def charDigit (c : Char) : ℕ := c.toNat - 48

/-- Decimal rendering of a natural number, most significant digit first. -/
def renderNat (n : ℕ) : List Char :=
  if n = 0 then ['0'] else (Nat.digits 10 n).reverse.map digitChar

/-- Read a decimal digit string back into a natural number. -/
def parseNatChars (cs : List Char) : ℕ :=
  Nat.ofDigits 10 (cs.map charDigit).reverse

/-- Decimal rendering of an integer, with a leading minus sign when
negative. -/
def renderInt (i : ℤ) : List Char :=
  if i < 0 then '-' :: renderNat i.natAbs else renderNat i.toNat

/-- Read a decimal integer string back, honouring a leading minus sign. -/
def parseIntChars (cs : List Char) : ℤ :=
  if cs.head? = some '-' then -(parseNatChars cs.tail : ℤ)
  else (parseNatChars cs : ℤ)

/-- Left-pad with zeros to width `w` (Python's `%04d` / `%02d` date
fields). -/
def pad (w : ℕ) (cs : List Char) : List Char :=
  List.replicate (w - cs.length) '0' ++ cs

/-- `str(e.date)`: the `YYYY-MM-DD` rendering. -/
def renderDate (d : PyDate) : List Char :=
  List.intercalate ['-']
    [pad 4 (renderNat d.year), pad 2 (renderNat d.month), pad 2 (renderNat d.day)]

/-- Read a `YYYY-MM-DD` date cell back. -/
def parseDate (cs : List Char) : Option PyDate :=
  match cs.splitOn '-' with
  | [y, m, d] => some ⟨parseNatChars y, parseNatChars m, parseNatChars d⟩
  | _ => none

/-- Injective text of the rational sleep-hours cell. -/
def renderRat (q : ℚ) : List Char :=
  List.intercalate ['/'] [renderInt q.num, renderNat q.den]

/-- Read a rational cell back. -/
def parseRat (cs : List Char) : Option ℚ :=
  match cs.splitOn '/' with
  | [a, b] => some ((parseIntChars a : ℚ) / (parseNatChars b : ℚ))
  | _ => none

/-- The four cells `csv.writer` writes for one entry. -/
def entryFields (e : Entry) : List (List Char) :=
  [renderDate e.date, renderRat e.sleep_hours,
   renderInt e.mood, renderInt e.productivity]

/-- The fixed header cells `["Date", "Sleep Hours", "Mood", "Productivity"]`. -/
def headerFields : List (List Char) :=
  ["Date".toList, "Sleep Hours".toList, "Mood".toList, "Productivity".toList]

/-- One CSV line: cells joined with commas. -/
def csvLine (fs : List (List Char)) : List Char := List.intercalate [','] fs

/-- The full text of `GET /export/csv`: header row then one row per entry in
query order, each row terminated by `"\r\n"`. -/
def export_csv (es : List Entry) : List Char :=
  List.intercalate ['\n']
    (((headerFields :: es.map entryFields).map fun fs => csvLine fs ++ ['\r'])
      ++ [[]])

/-- Strip the `'\r'` a CSV row ends with. -/
def stripCR (cs : List Char) : Option (List Char) :=
  match cs.getLast? with
  | some c => if c = '\r' then some cs.dropLast else none
  | none => none

/-- Parse one data row back into its `(date, sleep, mood, productivity)`
tuple. -/
def parseRow (cs : List Char) : Option (PyDate × ℚ × ℤ × ℤ) :=
  match cs.splitOn ',' with
  | [d, s, m, p] => do
    let date ← parseDate d
    let sleep ← parseRat s
    pure (date, sleep, parseIntChars m, parseIntChars p)
  | _ => none

/-- Parse each data row in order, failing when any row fails. -/
def parseRows : List (List Char) → Option (List (PyDate × ℚ × ℤ × ℤ))
  | [] => some []
  | r :: rest => do
    let t ← (stripCR r).bind parseRow
    let ts ← parseRows rest
    pure (t :: ts)

/-- Parse a whole exported CSV text: check the fixed header row, then parse
every data row in order. -/
def parse_csv (cs : List Char) : Option (List (PyDate × ℚ × ℤ × ℤ)) :=
  let lines := cs.splitOn '\n'
  match lines.getLast? with
  | some [] =>
    match lines.dropLast with
    | [] => none
    | hdr :: rows =>
      if hdr = csvLine headerFields ++ ['\r'] then parseRows rows
      else none
  | _ => none

/-! ## Clustering (`backend/ml/clustering.py`) and its narrator
(`backend/services/ai_insights.py`)

`KMeans` is a library routine outside the repository; it enters as the
parameter `kmeans`, returning either a label per point or, like any of the
conversions inside the `try`, an exception, modelled as `Except.error`.
`cluster_days` catches every such failure and degrades to the empty dict. -/

/-- One day record handed to `cluster_days`. -/
structure Day where
  sleep_hours : ℚ
  mood : ℤ
  productivity : ℤ
deriving DecidableEq, Repr

/-- `str(label)` for an integer cluster label. -/
def renderIntStr (i : ℤ) : String := ⟨renderInt i⟩

/-- One step of `clusters.setdefault(str(label), []).append(day)`: dict
insertion order, append at the end of the bucket. -/
def addLabeled (cs : List (String × List Day)) (k : String) (d : Day) :
    List (String × List Day) :=
  match cs with
  | [] => [(k, [d])]
  | (k', ds) :: rest =>
    if k' = k then (k', ds ++ [d]) :: rest
    else (k', ds) :: addLabeled rest k d

/-- Group the days by their labels (`zip(labels, data)` truncates to the
shorter list, as in Python). -/
def groupByLabel (labels : List ℤ) (data : List Day) :
    List (String × List Day) :=
  (labels.zip data).foldl (fun cs ld => addLabeled cs (renderIntStr ld.1) ld.2) []

/-- The 3-dimensional feature matrix `[[sleep, mood, productivity], ...]`. -/
def clusterFeatures (data : List Day) : List (ℚ × ℚ × ℚ) :=
  data.map fun d => (d.sleep_hours, (d.mood : ℚ), (d.productivity : ℚ))

/-- `cluster_days` of `backend/ml/clustering.py`: fewer than 3 records or
any failure inside the `try` yields the empty dict; otherwise the records
grouped by assigned label. -/
def cluster_days (kmeans : List (ℚ × ℚ × ℚ) → Except String (List ℤ))
    (data : List Day) : List (String × List Day) :=
  if data.length < 3 then []
  else
    match kmeans (clusterFeatures data) with
    | .error _ => []
    | .ok labels => groupByLabel labels data

/-- A value of the dynamic dicts `explain_clusters` receives: either a
message string or a list of day records. -/
inductive CVal where
  | str (s : String)
  | days (l : List Day)
deriving DecidableEq, Repr

/-- A day record of the list branch of `explain_clusters`, carrying the
`"cluster"` key that branch reads. -/
structure LabeledDay where
  cluster : ℤ
  sleep_hours : ℚ
  productivity : ℤ
deriving DecidableEq, Repr

/-- The two runtime shapes `explain_clusters` distinguishes with
`isinstance(clustered_data, dict)`. -/
inductive ExplainInput where
  | dict (d : List (String × CVal))
  | list (l : List LabeledDay)
deriving DecidableEq, Repr

/-- What `explain_clusters` returns: one value (the dict or short-list
branches) or the per-cluster insight list. -/
inductive ExplainOutput where
  | single (v : CVal)
  | insights (l : List String)
deriving DecidableEq, Repr

/-- One step of filling `cluster_summary` (insertion-ordered, grouped by the
`"cluster"` value). -/
def addDaySummary (acc : List (ℤ × (List ℚ × List ℤ))) (d : LabeledDay) :
    List (ℤ × (List ℚ × List ℤ)) :=
  match acc with
  | [] => [(d.cluster, ([d.sleep_hours], [d.productivity]))]
  | (c, (ss, ps)) :: rest =>
    if c = d.cluster then (c, (ss ++ [d.sleep_hours], ps ++ [d.productivity])) :: rest
    else (c, (ss, ps)) :: addDaySummary rest d

/-- The `cluster_summary` dict of `explain_clusters`. -/
def clusterSummary (days : List LabeledDay) : List (ℤ × (List ℚ × List ℤ)) :=
  days.foldl addDaySummary []

/-- `explain_clusters` of `backend/services/ai_insights.py`: any dict input
takes the first branch and returns `clustered_data.get("message", ...)`;
only a list of 2 or more labeled days reaches the per-cluster narration. -/
def explain_clusters : ExplainInput → ExplainOutput
  | .dict d =>
    .single ((d.lookup "message").getD
      (.str "Not enough data to generate insights."))
  | .list days =>
    if days.length < 2 then
      .single (.str "Not enough data to generate insights.")
    else
      .insights ((clusterSummary days).map fun cs =>
        if mean cs.2.1 < 6 then
          "Cluster " ++ renderIntStr cs.1 ++
            ": These are low-energy days. Low sleep is linked to lower productivity."
        else
          "Cluster " ++ renderIntStr cs.1 ++
            ": These are high-performance days. Good sleep supports better productivity.")

/-- A `cluster_days` result as the dict `explain_clusters` would receive. -/
def clustersAsDict (cs : List (String × List Day)) : List (String × CVal) :=
  cs.map fun kv => (kv.1, .days kv.2)

/-! ## Auth (`register` and `login` of `backend/main.py`)

`hash_password` and `verify_password` wrap passlib's bcrypt context, outside
the repository; they enter as the parameters `hash` and `verify`. -/

/-- A row of the `users` table. -/
structure User where
  email : String
  hashed_password : String
deriving DecidableEq, Repr

/-- `register`: conflict error when the email is already present, else store
the email with the password hash. -/
def register (hash : String → String) (db : List User)
    (email password : String) : Except ℕ (String × List User) :=
  if (db.find? fun u => u.email == email).isSome then .error 400
  else .ok ("Registered", db ++ [{ email := email, hashed_password := hash password }])

/-- `login`: look up by email; an absent user or a failing hash verification
yields 401, success returns the stored email. -/
def login (verify : String → String → Bool) (db : List User)
    (email password : String) : Except ℕ (String × String) :=
  match db.find? fun u => u.email == email with
  | none => .error 401
  | some user =>
    if verify password user.hashed_password then .ok ("Login success", user.email)
    else .error 401

/-! ## Concrete sample data used by witnesses and counterexamples -/

/-- A fixed sample date. -/
def sampleDate : PyDate := ⟨2024, 1, 1⟩

/-- Two complete prediction rows with productivity values 4 and 6. -/
def sampleML2 : List MLEntry := [⟨some 7, some 4⟩, ⟨some 8, some 6⟩]

/-- Four complete prediction rows whose least-squares fit is
`y = 0.9 + 0.9·x`. -/
def sampleML4 : List MLEntry :=
  [⟨some 0, some 1⟩, ⟨some 1, some 2⟩, ⟨some 2, some 2⟩, ⟨some 3, some 4⟩]

/-- Rows each missing one field, so the filtered pair list is empty. -/
def sampleMLNone : List MLEntry := [⟨none, some 5⟩, ⟨some 3, none⟩]

/-- Three entries whose average sleep is 20/3: the raw burnout formula gives
the non-integer 170/3 there. -/
def sampleEntries3 : List Entry :=
  [⟨1, ⟨2024, 1, 1⟩, 7, 5, 5⟩, ⟨2, ⟨2024, 1, 2⟩, 7, 5, 5⟩,
   ⟨3, ⟨2024, 1, 3⟩, 6, 5, 5⟩]

/-- One well-rested sample entry. -/
def sampleEntry : Entry := ⟨1, sampleDate, 8, 6, 7⟩

/-- Entries producing three sleep buckets with bucket means 6, 6 and 2: the
two leading buckets tie. -/
def sampleTie : List Entry :=
  [⟨1, ⟨2024, 1, 1⟩, 7, 5, 6⟩, ⟨2, ⟨2024, 1, 2⟩, 8, 5, 6⟩,
   ⟨3, ⟨2024, 1, 3⟩, 5, 5, 2⟩]

/-! ## Theorems -/

/-- C4: with fewer than 3 entries, the insights, mood-productivity
correlation and recommendations endpoints each return their fixed "not
enough data" response; the responses are constants, hence independent of the
entries' content. -/
theorem few_entries_fixed_responses (es : List Entry)
    (pearson : List ℤ → List ℤ → ℚ) (h : es.length < 3) :
    ai_insights es = [Insight.notEnoughData] ∧
    mood_productivity_correlation pearson es =
      { correlation := none, strength := none
        message := "Not enough data to analyze mood and productivity relationship." } ∧
    recommendations es =
      ["Track your sleep, mood, and productivity for a few more days to unlock personalized recommendations."] := by
  refine ⟨?_, ?_, ?_⟩ <;>
    simp [ai_insights, mood_productivity_correlation, recommendations, h]

/-- Witness for C4 at two concrete entries and a trivial Pearson stand-in. -/
theorem few_entries_fixed_responses_witness :
    ai_insights [sampleEntry, ⟨2, ⟨2024, 1, 2⟩, 4, 2, 3⟩] =
      [Insight.notEnoughData] ∧
    mood_productivity_correlation (fun _ _ => 0)
      [sampleEntry, ⟨2, ⟨2024, 1, 2⟩, 4, 2, 3⟩] =
      { correlation := none, strength := none
        message := "Not enough data to analyze mood and productivity relationship." } ∧
    recommendations [sampleEntry, ⟨2, ⟨2024, 1, 2⟩, 4, 2, 3⟩] =
      ["Track your sleep, mood, and productivity for a few more days to unlock personalized recommendations."] :=
  few_entries_fixed_responses [sampleEntry, ⟨2, ⟨2024, 1, 2⟩, 4, 2, 3⟩]
    (fun _ _ => 0) (by decide)

/-- C5: deleting an entry id that is present in no row returns the success
acknowledgment and leaves the table unchanged. -/
theorem delete_missing_id_noop (st : List Entry) (entry_id : ℕ)
    (h : ∀ e ∈ st, e.id ≠ entry_id) :
    delete_entry st entry_id = ("Entry deleted", st) := by
  unfold delete_entry
  have hnone : st.find? (fun e => e.id == entry_id) = none :=
    List.find?_eq_none.mpr fun e he => by simpa using h e he
  rw [hnone]

/-- Witness for C5: deleting id 99 from a one-row table without it. -/
theorem delete_missing_id_noop_witness :
    delete_entry [sampleEntry] 99 = ("Entry deleted", [sampleEntry]) :=
  delete_missing_id_noop [sampleEntry] 99 (by decide)

/-- C8: `cluster_days` returns the empty dict for fewer than 3 records, and
also whenever the clustering library call fails; being a total function of
the caught-exception model, it never propagates a failure. -/
theorem cluster_days_guard_and_catch
    (kmeans : List (ℚ × ℚ × ℚ) → Except String (List ℤ)) (data : List Day) :
    (data.length < 3 → cluster_days kmeans data = []) ∧
    (∀ err, kmeans (clusterFeatures data) = .error err →
      cluster_days kmeans data = []) := by
  constructor
  · intro h
    simp [cluster_days, h]
  · intro err herr
    unfold cluster_days
    by_cases hlen : data.length < 3
    · rw [if_pos hlen]
    · rw [if_neg hlen, herr]

/-- Witness for C8: a failing clustering call on 3 records, and 1 record
below the guard. -/
theorem cluster_days_guard_and_catch_witness :
    cluster_days (fun _ => .error "boom") [⟨5, 2, 3⟩, ⟨8, 7, 9⟩, ⟨4, 1, 2⟩] = [] ∧
    cluster_days (fun _ => .ok []) [⟨5, 2, 3⟩] = [] :=
  ⟨(cluster_days_guard_and_catch (fun _ => .error "boom")
      [⟨5, 2, 3⟩, ⟨8, 7, 9⟩, ⟨4, 1, 2⟩]).2 "boom" rfl,
   (cluster_days_guard_and_catch (fun _ => .ok []) [⟨5, 2, 3⟩]).1 (by decide)⟩

/-- C9: registering a present email is a 400 conflict and stores nothing;
login with an absent email or a failing hash verification is a 401; login
whose verification succeeds returns the email. -/
theorem auth_register_login_behaviour
    (hash : String → String) (verify : String → String → Bool)
    (db : List User) (email password : String) :
    ((∃ u ∈ db, u.email = email) →
      register hash db email password = .error 400) ∧
    ((∀ u ∈ db, u.email ≠ email) →
      login verify db email password = .error 401) ∧
    (∀ u, db.find? (fun v => v.email == email) = some u →
      verify password u.hashed_password = false →
      login verify db email password = .error 401) ∧
    (∀ u, db.find? (fun v => v.email == email) = some u →
      verify password u.hashed_password = true →
      login verify db email password = .ok ("Login success", email)) := by
  refine ⟨?_, ?_, ?_, ?_⟩
  · rintro ⟨u, hu, he⟩
    have : (db.find? fun v => v.email == email).isSome := by
      rw [List.find?_isSome]
      exact ⟨u, hu, by simpa using he⟩
    simp [register, this]
  · intro h
    have hnone : db.find? (fun v => v.email == email) = none :=
      List.find?_eq_none.mpr fun u hu => by simpa using h u hu
    simp [login, hnone]
  · intro u hu hv
    simp [login, hu, hv]
  · intro u hu hv
    have he : u.email = email := by simpa using List.find?_some hu
    simp [login, hu, hv, he]

/-- Witness for C9 on a one-user store with a transparent hash model. -/
theorem auth_register_login_behaviour_witness :
    register (fun p => "h" ++ p) [⟨"a@b.c", "hpw"⟩] "a@b.c" "x" = .error 400 ∧
    login (fun p h0 => h0 == "h" ++ p) [⟨"a@b.c", "hpw"⟩] "z@b.c" "pw" = .error 401 ∧
    login (fun p h0 => h0 == "h" ++ p) [⟨"a@b.c", "hpw"⟩] "a@b.c" "bad" = .error 401 ∧
    login (fun p h0 => h0 == "h" ++ p) [⟨"a@b.c", "hpw"⟩] "a@b.c" "pw" =
      .ok ("Login success", "a@b.c") :=
  ⟨(auth_register_login_behaviour (fun p => "h" ++ p) (fun p h0 => h0 == "h" ++ p)
      [⟨"a@b.c", "hpw"⟩] "a@b.c" "x").1 ⟨⟨"a@b.c", "hpw"⟩, by simp, rfl⟩,
   (auth_register_login_behaviour (fun p => "h" ++ p) (fun p h0 => h0 == "h" ++ p)
      [⟨"a@b.c", "hpw"⟩] "z@b.c" "pw").2.1 (by decide),
   (auth_register_login_behaviour (fun p => "h" ++ p) (fun p h0 => h0 == "h" ++ p)
      [⟨"a@b.c", "hpw"⟩] "a@b.c" "bad").2.2.1 ⟨"a@b.c", "hpw"⟩ rfl (by decide),
   (auth_register_login_behaviour (fun p => "h" ++ p) (fun p h0 => h0 == "h" ++ p)
      [⟨"a@b.c", "hpw"⟩] "a@b.c" "pw").2.2.2 ⟨"a@b.c", "hpw"⟩ rfl (by decide)⟩

/-- On every non-empty entry list the returned score field is the floor of
the clamped deficit formula (Python `int()` truncates toward zero, and the
clamped value is nonnegative). -/
theorem burnout_score_eq_floor (es : List Entry) (h : es ≠ []) :
    (burnout_score es).score =
      ⌊max 0 (min 100 ((10 - avgSleep es) * 8 + (10 - avgProd es) * 6))⌋ := by
  unfold burnout_score
  rw [if_neg h]
  dsimp only
  split_ifs <;> simp [pyInt, le_max_left]

/-- C2 counterexample: on three entries with sleep hours 7, 7 and 6 the raw
clamp formula evaluates to 170/3, but the endpoint returns the integer 56,
so the claimed equality of the score with the clamp value fails. -/
theorem burnout_score_not_raw_clamp :
    ¬(((burnout_score sampleEntries3).score : ℚ) =
        burnoutScoreSpec sampleEntries3) := by
  have hs : avgSleep sampleEntries3 = 20/3 := by
    norm_num [avgSleep, mean, sampleEntries3]
  have hp : avgProd sampleEntries3 = 5 := by
    norm_num [avgProd, mean, sampleEntries3]
  have hspec : burnoutScoreSpec sampleEntries3 = 170/3 := by
    rw [burnoutScoreSpec, clamp, hs, hp]
    norm_num
  have hscore : (burnout_score sampleEntries3).score = 56 := by
    rw [burnout_score_eq_floor sampleEntries3 (by decide), hs, hp]
    norm_num
  rw [hspec, hscore]
  norm_num

/-- C2 (amended): the score is the clamped deficit formula truncated to an
integer by Python `int()` (its floor, the value being nonnegative), and the
level and fixed message follow the 70/40 thresholds applied to that
truncated score. -/
theorem burnout_score_truncated (es : List Entry) (h : es ≠ []) :
    (burnout_score es).score = pyInt (burnoutScoreSpec es) ∧
    (70 < pyInt (burnoutScoreSpec es) →
      (burnout_score es).level = "High" ∧
      (burnout_score es).message =
        "You're at high risk of burnout. Consider rest and workload adjustment.") ∧
    (40 < pyInt (burnoutScoreSpec es) → pyInt (burnoutScoreSpec es) ≤ 70 →
      (burnout_score es).level = "Moderate" ∧
      (burnout_score es).message =
        "Some signs of fatigue detected. Small changes could help.") ∧
    (pyInt (burnoutScoreSpec es) ≤ 40 →
      (burnout_score es).level = "Low" ∧
      (burnout_score es).message =
        "Burnout risk is low. You're managing things well.") := by
  have hspec : pyInt (burnoutScoreSpec es) =
      pyInt (max 0 (min 100 ((10 - avgSleep es) * 8 + (10 - avgProd es) * 6))) :=
    rfl
  rw [hspec]
  unfold burnout_score
  rw [if_neg h]
  dsimp only
  split_ifs with h1 h2
  · exact ⟨rfl, fun _ => ⟨rfl, rfl⟩, fun ha hb => absurd h1 (by omega),
      fun ha => absurd h1 (by omega)⟩
  · exact ⟨rfl, fun ha => absurd ha (by omega), fun _ _ => ⟨rfl, rfl⟩,
      fun ha => absurd h2 (by omega)⟩
  · exact ⟨rfl, fun ha => absurd ha (by omega), fun ha hb => absurd ha (by omega),
      fun _ => ⟨rfl, rfl⟩⟩

/-- Witness for C2 (amended): the 170/3 example truncates to score 56,
level "Moderate". -/
theorem burnout_score_truncated_witness :
    (burnout_score sampleEntries3).score = 56 ∧
    (burnout_score sampleEntries3).level = "Moderate" := by
  have hval : pyInt (burnoutScoreSpec sampleEntries3) = 56 := by
    have hs : avgSleep sampleEntries3 = 20/3 := by
      norm_num [avgSleep, mean, sampleEntries3]
    have hp : avgProd sampleEntries3 = 5 := by
      norm_num [avgProd, mean, sampleEntries3]
    rw [burnoutScoreSpec, clamp, hs, hp, pyInt]
    norm_num
  have h := burnout_score_truncated sampleEntries3 (by decide)
  exact ⟨h.1.trans hval, (h.2.2.1 (by rw [hval]; norm_num)
    (by rw [hval]; norm_num)).1⟩

/-- C3: lowering both averages never lowers the burnout score, and the score
always lies in [0, 100]. -/
theorem burnout_score_monotone_bounded :
    (∀ l1 l2 : List Entry, l1 ≠ [] → l2 ≠ [] →
      avgSleep l2 ≤ avgSleep l1 → avgProd l2 ≤ avgProd l1 →
      (burnout_score l1).score ≤ (burnout_score l2).score) ∧
    ∀ l : List Entry, l ≠ [] →
      0 ≤ (burnout_score l).score ∧ (burnout_score l).score ≤ 100 := by
  constructor
  · intro l1 l2 h1 h2 hs hp
    rw [burnout_score_eq_floor l1 h1, burnout_score_eq_floor l2 h2]
    apply Int.floor_le_floor
    apply max_le_max le_rfl
    apply min_le_min le_rfl
    nlinarith
  · intro l hl
    rw [burnout_score_eq_floor l hl]
    constructor
    · exact Int.floor_nonneg.mpr (le_max_left _ _)
    · have hle : max 0 (min 100 ((10 - avgSleep l) * 8 + (10 - avgProd l) * 6))
          ≤ (100 : ℚ) := max_le (by norm_num) (min_le_left _ _)
      calc ⌊max 0 (min 100 ((10 - avgSleep l) * 8 + (10 - avgProd l) * 6))⌋
          ≤ ⌊(100 : ℚ)⌋ := Int.floor_le_floor hle
        _ = 100 := by norm_num

/-- Witness for C3: a well-rested list against a worse one, plus the bounds
at the first list. -/
theorem burnout_score_monotone_bounded_witness :
    (burnout_score [⟨1, sampleDate, 8, 5, 8⟩]).score ≤
      (burnout_score [⟨2, sampleDate, 6, 5, 4⟩]).score ∧
    (0 ≤ (burnout_score [⟨1, sampleDate, 8, 5, 8⟩]).score ∧
      (burnout_score [⟨1, sampleDate, 8, 5, 8⟩]).score ≤ 100) :=
  ⟨burnout_score_monotone_bounded.1 [⟨1, sampleDate, 8, 5, 8⟩]
      [⟨2, sampleDate, 6, 5, 4⟩] (by decide) (by decide)
      (by norm_num [avgSleep, mean]) (by norm_num [avgProd, mean]),
   burnout_score_monotone_bounded.2 [⟨1, sampleDate, 8, 5, 8⟩] (by decide)⟩

/-- Expansion of the residual sum of squares into the primitive sums. -/
theorem rss_expand (d : List (ℚ × ℚ)) (a b : ℚ) :
    rss d a b = sumYY d + d.length * a ^ 2 + b ^ 2 * sumXX d
      - 2 * a * sumY d - 2 * b * sumXY d + 2 * a * b * sumX d := by
  induction d with
  | nil => simp [rss, sumYY, sumXX, sumXY, sumX, sumY]
  | cons p t ih =>
    simp only [rss, sumYY, sumXX, sumXY, sumX, sumY, List.map_cons,
      List.sum_cons, List.length_cons] at ih ⊢
    rw [ih]
    push_cast
    ring

/-- Expansion of a shifted x square sum. -/
theorem sumsq_x_expand (d : List (ℚ × ℚ)) (t : ℚ) :
    (d.map fun p => (p.1 - t) ^ 2).sum
      = sumXX d - 2 * t * sumX d + d.length * t ^ 2 := by
  induction d with
  | nil => simp [sumXX, sumX]
  | cons p l ih =>
    simp only [sumXX, sumX, List.map_cons, List.sum_cons, List.length_cons] at ih ⊢
    rw [ih]
    push_cast
    ring

/-- Expansion of a shifted y square sum. -/
theorem sumsq_y_expand (d : List (ℚ × ℚ)) (t : ℚ) :
    (d.map fun p => (p.2 - t) ^ 2).sum
      = sumYY d - 2 * t * sumY d + d.length * t ^ 2 := by
  induction d with
  | nil => simp [sumYY, sumY]
  | cons p l ih =>
    simp only [sumYY, sumY, List.map_cons, List.sum_cons, List.length_cons] at ih ⊢
    rw [ih]
    push_cast
    ring

/-- Expansion of a shifted product sum. -/
theorem summul_expand (d : List (ℚ × ℚ)) (s t : ℚ) :
    (d.map fun p => (p.1 - s) * (p.2 - t)).sum
      = sumXY d - s * sumY d - t * sumX d + d.length * (s * t) := by
  induction d with
  | nil => simp [sumXY, sumY, sumX]
  | cons p l ih =>
    simp only [sumXY, sumY, sumX, List.map_cons, List.sum_cons, List.length_cons] at ih ⊢
    rw [ih]
    push_cast
    ring

/-- The centered decomposition of the residual sum of squares. -/
theorem rss_centered (d : List (ℚ × ℚ)) (hd : d ≠ []) (a b : ℚ) :
    rss d a b = cSyy d - 2 * b * cSxy d + b ^ 2 * cSxx d
      + d.length * (ybar d - a - b * xbar d) ^ 2 := by
  have hn : (d.length : ℚ) ≠ 0 :=
    Nat.cast_ne_zero.mpr (List.length_pos.mpr hd).ne'
  rw [rss_expand]
  unfold cSyy cSxx cSxy
  rw [sumsq_y_expand, sumsq_x_expand, summul_expand]
  unfold xbar ybar
  field_simp
  ring

/-- The centered second moment is a sum of squares, hence nonnegative. -/
theorem cSxx_nonneg (d : List (ℚ × ℚ)) : 0 ≤ cSxx d := by
  apply List.sum_nonneg
  intro x hx
  obtain ⟨p, _, rfl⟩ := List.mem_map.mp hx
  positivity

/-- A list of nonnegative rationals summing to zero is all zeros. -/
theorem mem_eq_zero_of_sum_eq_zero {l : List ℚ} (h0 : ∀ x ∈ l, 0 ≤ x)
    (hs : l.sum = 0) : ∀ x ∈ l, x = 0 := by
  induction l with
  | nil => simp
  | cons a t ih =>
    simp only [List.sum_cons] at hs
    have ha : 0 ≤ a := h0 a (by simp)
    have ht : 0 ≤ t.sum := List.sum_nonneg fun x hx => h0 x (by simp [hx])
    have ha0 : a = 0 := by linarith
    have hts : t.sum = 0 := by linarith
    intro x hx
    rcases List.mem_cons.mp hx with rfl | hx
    · exact ha0
    · exact ih (fun y hy => h0 y (by simp [hy])) hts x hx

/-- When every x coincides with the mean, the centered mixed moment vanishes. -/
theorem cSxy_eq_zero (d : List (ℚ × ℚ)) (h : cSxx d = 0) : cSxy d = 0 := by
  have h' : (d.map fun q => (q.1 - xbar d) ^ 2).sum = 0 := h
  have hxx : ∀ p ∈ d, p.1 - xbar d = 0 := by
    intro p hp
    have hz := mem_eq_zero_of_sum_eq_zero
      (l := d.map fun q => (q.1 - xbar d) ^ 2)
      (fun x hx => by obtain ⟨q, _, rfl⟩ := List.mem_map.mp hx; positivity)
      h' ((p.1 - xbar d) ^ 2) (List.mem_map.mpr ⟨p, hp, rfl⟩)
    exact pow_eq_zero_iff (two_ne_zero) |>.mp hz
  unfold cSxy
  apply List.sum_eq_zero
  intro x hx
  obtain ⟨p, hp, rfl⟩ := List.mem_map.mp hx
  rw [hxx p hp]
  ring

/-- The fitted slope and intercept minimize the residual sum of squares over
all affine predictors, including the degenerate all-x-equal case, where the
minimum-norm fit through the y mean is optimal. -/
theorem ols_min (d : List (ℚ × ℚ)) (a b : ℚ) :
    rss d (olsIntercept d) (olsSlope d) ≤ rss d a b := by
  rcases eq_or_ne d [] with rfl | hd
  · simp [rss]
  · have hn0 : (0 : ℚ) < d.length := by
      exact_mod_cast List.length_pos.mpr hd
    by_cases h0 : cSxx d = 0
    · have hxy : cSxy d = 0 := cSxy_eq_zero d h0
      have hb : olsSlope d = 0 := by simp [olsSlope, h0]
      have hc : ybar d - olsIntercept d - olsSlope d * xbar d = 0 := by
        unfold olsIntercept
        ring
      rw [rss_centered d hd, rss_centered d hd, hc, h0, hxy, hb]
      nlinarith [mul_nonneg hn0.le (sq_nonneg (ybar d - a - b * xbar d))]
    · have hpos : 0 < cSxx d := (cSxx_nonneg d).lt_of_ne (Ne.symm h0)
      have hb : olsSlope d = cSxy d / cSxx d := by simp [olsSlope, h0]
      have hc : ybar d - olsIntercept d - olsSlope d * xbar d = 0 := by
        unfold olsIntercept
        ring
      have hxy : cSxy d = olsSlope d * cSxx d := by
        rw [hb]
        field_simp
      rw [rss_centered d hd, rss_centered d hd, hc, hxy]
      nlinarith [mul_nonneg hn0.le (sq_nonneg (ybar d - a - b * xbar d)),
        mul_nonneg hpos.le (sq_nonneg (b - olsSlope d))]

/-- C1 (amended): the three prediction modes behave exactly per the claim,
except that the regression-mode value is additionally rounded to 2 decimals
like the average mode; the fitted line is genuinely the least-squares one
(it minimizes the residual sum of squares over all affine predictors). -/
theorem train_and_predict_cases (entries : List MLEntry) (t : ℚ) :
    ((mlPairs entries).length = 0 →
      train_and_predict entries t =
        { predicted_productivity := 5, mode := "no-data", confidence := 20 }) ∧
    (1 ≤ (mlPairs entries).length → (mlPairs entries).length ≤ 3 →
      train_and_predict entries t =
        { predicted_productivity :=
            pyRound (mean ((mlPairs entries).map Prod.snd)) 2
          mode := "average"
          confidence := min 60 (30 + ((mlPairs entries).length : ℤ) * 10) }) ∧
    (4 ≤ (mlPairs entries).length →
      (train_and_predict entries t =
        { predicted_productivity :=
            pyRound (clamp 1 10 (olsPredict (mlPairs entries) t)) 2
          mode := "regression", confidence := 75 } ∧
       ∀ a b, rss (mlPairs entries) (olsIntercept (mlPairs entries))
          (olsSlope (mlPairs entries)) ≤ rss (mlPairs entries) a b)) := by
  refine ⟨?_, ?_, ?_⟩
  · intro h
    simp only [train_and_predict]
    rw [if_pos h]
  · intro h1 h2
    simp only [train_and_predict]
    rw [if_neg (by omega : ¬(mlPairs entries).length = 0),
      if_pos (by omega : (mlPairs entries).length < 4)]
  · intro h4
    refine ⟨?_, fun a b => ols_min (mlPairs entries) a b⟩
    simp only [train_and_predict]
    rw [if_neg (by omega : ¬(mlPairs entries).length = 0),
      if_neg (by omega : ¬(mlPairs entries).length < 4)]

/-- The sample rows filter to four complete pairs. -/
theorem mlPairs_sampleML4 : mlPairs sampleML4 = [(0, 1), (1, 2), (2, 2), (3, 4)] := rfl

/-- x mean of the sample data. -/
theorem xbar_s4 : xbar [((0:ℚ), (1:ℚ)), (1, 2), (2, 2), (3, 4)] = 3/2 := by
  norm_num [xbar, sumX]

/-- y mean of the sample data. -/
theorem ybar_s4 : ybar [((0:ℚ), (1:ℚ)), (1, 2), (2, 2), (3, 4)] = 9/4 := by
  norm_num [ybar, sumY]

/-- Centered x moment of the sample data. -/
theorem cSxx_s4 : cSxx [((0:ℚ), (1:ℚ)), (1, 2), (2, 2), (3, 4)] = 5 := by
  norm_num [cSxx, xbar_s4]

/-- Centered mixed moment of the sample data. -/
theorem cSxy_s4 : cSxy [((0:ℚ), (1:ℚ)), (1, 2), (2, 2), (3, 4)] = 9/2 := by
  norm_num [cSxy, xbar_s4, ybar_s4]

/-- The fitted line of the sample data is y = 0.9 + 0.9 x; at x = 1/8 it
predicts 81/80. -/
theorem olsPredict_s4 :
    olsPredict [((0:ℚ), (1:ℚ)), (1, 2), (2, 2), (3, 4)] (1/8) = 81/80 := by
  have hslope : olsSlope [((0:ℚ), (1:ℚ)), (1, 2), (2, 2), (3, 4)] = 9/10 := by
    rw [olsSlope, if_neg (by rw [cSxx_s4]; norm_num), cSxx_s4, cSxy_s4]
    norm_num
  rw [olsPredict, olsIntercept, hslope, xbar_s4, ybar_s4]
  norm_num

/-- 1.0125 rounds to 1.01 at two decimals. -/
theorem pyRound_81_80 : pyRound (81/80) 2 = 101/100 := by
  norm_num [pyRound, pyRoundInt]

/-- C1 counterexample: on four pairs with fit y = 0.9 + 0.9 x and target
1/8, the endpoint returns 1.01 while the claim's unrounded clamped
least-squares prediction is 1.0125. -/
theorem train_and_predict_unrounded_cex :
    train_and_predict sampleML4 (1/8) ≠
      { predicted_productivity := clamp 1 10 (olsPredict (mlPairs sampleML4) (1/8))
        mode := "regression", confidence := 75 } := by
  have h4 : 4 ≤ (mlPairs sampleML4).length := by decide
  have heq := ((train_and_predict_cases sampleML4 (1/8)).2.2 h4).1
  rw [heq, mlPairs_sampleML4, olsPredict_s4]
  have hclamp : clamp 1 10 ((81:ℚ)/80) = 81/80 := by
    rw [clamp]
    norm_num
  rw [hclamp, pyRound_81_80]
  intro hcontra
  have hfield := congrArg PredictResult.predicted_productivity hcontra
  norm_num at hfield

/-- Witness for C1 at concrete inputs for all three modes (0 complete
pairs, 2 pairs with productivity 4 and 6 giving 5.0 at confidence 50, and
4 pairs in regression mode). -/
theorem train_and_predict_cases_witness :
    train_and_predict sampleMLNone 2 =
      { predicted_productivity := 5, mode := "no-data", confidence := 20 } ∧
    train_and_predict sampleML2 7 =
      { predicted_productivity := 5, mode := "average", confidence := 50 } ∧
    (train_and_predict sampleML4 (1/8) =
      { predicted_productivity := 101/100, mode := "regression", confidence := 75 } ∧
     rss (mlPairs sampleML4) (olsIntercept (mlPairs sampleML4))
        (olsSlope (mlPairs sampleML4)) ≤ rss (mlPairs sampleML4) 1 1) := by
  have h1 := (train_and_predict_cases sampleMLNone 2).1 (by decide)
  have h2 := (train_and_predict_cases sampleML2 7).2.1 (by decide) (by decide)
  have h3 := (train_and_predict_cases sampleML4 (1/8)).2.2 (by decide)
  have hp2 : mlPairs sampleML2 = [((7:ℚ), (4:ℚ)), (8, 6)] := rfl
  rw [hp2] at h2
  refine ⟨h1, h2.trans ?_, h3.1.trans ?_, h3.2 1 1⟩
  · have hm : mean (List.map Prod.snd [((7:ℚ), (4:ℚ)), (8, 6)]) = 5 := by
      norm_num [mean]
    rw [hm]
    have hr : pyRound (5:ℚ) 2 = 5 := by norm_num [pyRound, pyRoundInt]
    rw [hr]
    norm_num
  · rw [mlPairs_sampleML4, olsPredict_s4]
    have hclamp : clamp 1 10 ((81:ℚ)/80) = 81/80 := by
      rw [clamp]
      norm_num
    rw [hclamp, pyRound_81_80]

/-- Digit characters occupy code points 48 through 57. -/
theorem digitChar_bounds (d : ℕ) (h : d < 10) :
    48 ≤ (digitChar d).toNat ∧ (digitChar d).toNat ≤ 57 := by
  interval_cases d <;> decide

/-- Every character of a rendered natural number is a decimal digit. -/
theorem renderNat_bounds (n : ℕ) :
    ∀ c ∈ renderNat n, 48 ≤ c.toNat ∧ c.toNat ≤ 57 := by
  intro c hc
  unfold renderNat at hc
  split at hc
  · simp at hc
    subst hc
    decide
  · obtain ⟨d, hd, rfl⟩ := List.mem_map.mp hc
    exact digitChar_bounds d
      (Nat.digits_lt_base (by norm_num) (List.mem_reverse.mp hd))

/-- A rendered natural number is never the empty string. -/
theorem renderNat_ne_nil (n : ℕ) : renderNat n ≠ [] := by
  unfold renderNat
  split
  · simp
  · intro h
    rw [List.map_eq_nil_iff, List.reverse_eq_nil_iff] at h
    exact (Nat.digits_ne_nil_iff_ne_zero.mpr (by assumption)) h

/-- Every character of a rendered integer is a minus sign or a digit. -/
theorem renderInt_chars (i : ℤ) :
    ∀ c ∈ renderInt i, c = '-' ∨ (48 ≤ c.toNat ∧ c.toNat ≤ 57) := by
  intro c hc
  unfold renderInt at hc
  split at hc
  · rcases List.mem_cons.mp hc with rfl | hc
    · left
      rfl
    · right
      exact renderNat_bounds _ c hc
  · right
    exact renderNat_bounds _ c hc

/-- No integer label renders as the string "message". -/
theorem renderIntStr_ne_message (i : ℤ) : renderIntStr i ≠ "message" := by
  intro h
  have hdata : renderInt i = "message".data := congrArg String.data h
  have hm : 'm' ∈ renderInt i := by
    rw [hdata]
    decide
  rcases renderInt_chars i 'm' hm with h1 | h2
  · exact absurd h1 (by decide)
  · revert h2
    decide

/-- Adding to the label dict introduces no key other than the added one. -/
theorem addLabeled_keys (cs : List (String × List Day)) (k : String) (d : Day) :
    ∀ key ∈ (addLabeled cs k d).map Prod.fst, key ∈ cs.map Prod.fst ∨ key = k := by
  induction cs with
  | nil =>
    intro key hk
    simp [addLabeled] at hk
    right
    exact hk
  | cons p rest ih =>
    obtain ⟨k', ds⟩ := p
    intro key hk
    by_cases hkk : k' = k
    · simp only [addLabeled, if_pos hkk, List.map_cons, List.mem_cons] at hk ⊢
      tauto
    · simp only [addLabeled, if_neg hkk, List.map_cons, List.mem_cons] at hk ⊢
      rcases hk with rfl | hk
      · tauto
      · rcases ih key hk with h1 | h2 <;> tauto

/-- Every key of the grouped clusters is the rendering of some label. -/
theorem groupByLabel_keys (labels : List ℤ) (data : List Day) :
    ∀ key ∈ (groupByLabel labels data).map Prod.fst,
      ∃ i : ℤ, key = renderIntStr i := by
  suffices h : ∀ (ps : List (ℤ × Day)) (acc : List (String × List Day)),
      (∀ key ∈ acc.map Prod.fst, ∃ i : ℤ, key = renderIntStr i) →
      ∀ key ∈ (ps.foldl
          (fun cs ld => addLabeled cs (renderIntStr ld.1) ld.2) acc).map Prod.fst,
        ∃ i : ℤ, key = renderIntStr i by
    intro key hk
    exact h (labels.zip data) [] (by simp) key hk
  intro ps
  induction ps with
  | nil =>
    intro acc hacc key hk
    exact hacc key hk
  | cons p t ih =>
    intro acc hacc key hk
    simp only [List.foldl_cons] at hk
    refine ih _ ?_ key hk
    intro key2 hk2
    rcases addLabeled_keys acc (renderIntStr p.1) p.2 key2 hk2 with h1 | h2
    · exact hacc key2 h1
    · exact ⟨p.1, h2⟩

/-- Association-list lookup misses when no key matches. -/
theorem lookup_eq_none_of_keys {β : Type} (ps : List (String × β)) (k : String)
    (h : ∀ p ∈ ps, p.1 ≠ k) : ps.lookup k = none := by
  induction ps with
  | nil => rfl
  | cons p t ih =>
    obtain ⟨a, b⟩ := p
    have h1 : a ≠ k := h (a, b) (by simp)
    have h2 : (k == a) = false := by
      simp [beq_iff_eq]
      exact fun he => h1 he.symm
    simp only [List.lookup, h2]
    exact ih fun q hq => h q (by simp [hq])

/-- Every key of a `cluster_days` result is a rendered integer label. -/
theorem cluster_days_keys (kmeans : List (ℚ × ℚ × ℚ) → Except String (List ℤ))
    (data : List Day) :
    ∀ key ∈ (cluster_days kmeans data).map Prod.fst,
      ∃ i : ℤ, key = renderIntStr i := by
  intro key hk
  unfold cluster_days at hk
  by_cases hlen : data.length < 3
  · rw [if_pos hlen] at hk
    simp at hk
  · rw [if_neg hlen] at hk
    cases hkm : kmeans (clusterFeatures data) with
    | error e =>
      rw [hkm] at hk
      simp at hk
    | ok labels =>
      rw [hkm] at hk
      exact groupByLabel_keys labels data key hk

/-- C10: every dict input to `explain_clusters` takes the first branch and
yields the single value under "message" (or the fixed fallback), never the
per-cluster insight list; composed with `cluster_days`, whose keys are
integer strings, the result is always the fixed fallback string. -/
theorem explain_clusters_dict_single :
    (∀ d : List (String × CVal),
      explain_clusters (.dict d) =
        .single ((d.lookup "message").getD
          (.str "Not enough data to generate insights."))) ∧
    (∀ (d : List (String × CVal)) (l : List String),
      explain_clusters (.dict d) ≠ .insights l) ∧
    (∀ (kmeans : List (ℚ × ℚ × ℚ) → Except String (List ℤ)) (data : List Day),
      explain_clusters (.dict (clustersAsDict (cluster_days kmeans data))) =
        .single (.str "Not enough data to generate insights.")) := by
  refine ⟨fun d => rfl, fun d l => by simp [explain_clusters], ?_⟩
  intro kmeans data
  have hnone : (clustersAsDict (cluster_days kmeans data)).lookup "message" = none := by
    apply lookup_eq_none_of_keys
    intro p hp
    have hp' : p ∈ (cluster_days kmeans data).map
        fun kv => (kv.1, CVal.days kv.2) := hp
    have hk : p.1 ∈ (cluster_days kmeans data).map Prod.fst := by
      obtain ⟨q, hq, rfl⟩ := List.mem_map.mp hp'
      exact List.mem_map_of_mem Prod.fst hq
    obtain ⟨i, hi⟩ := cluster_days_keys kmeans data p.1 hk
    rw [hi]
    exact renderIntStr_ne_message i
  show ExplainOutput.single _ = _
  rw [hnone]
  rfl

/-- Invariant of Python max's scan: the result either is the start value
(nothing beat it) or splits the list with everything before it strictly
smaller and everything after no larger. -/
theorem foldl_max_spec {α : Type} (f : α → ℚ) :
    ∀ (xs : List α) (cur r : α),
      xs.foldl (fun c y => if f c < f y then y else c) cur = r →
      (r = cur ∧ ∀ y ∈ xs, f y ≤ f cur) ∨
      (∃ l₁ l₂, xs = l₁ ++ r :: l₂ ∧ f cur < f r ∧
        (∀ y ∈ l₁, f y < f r) ∧ ∀ y ∈ l₂, f y ≤ f r) := by
  intro xs
  induction xs with
  | nil =>
    intro cur r h
    left
    exact ⟨h.symm, by simp⟩
  | cons x t ih =>
    intro cur r h
    simp only [List.foldl_cons] at h
    by_cases hx : f cur < f x
    · rw [if_pos hx] at h
      rcases ih x r h with ⟨rfl, hall⟩ | ⟨l₁, l₂, heq, hlt, hl1, hl2⟩
      · right
        exact ⟨[], t, by simp, hx, by simp, hall⟩
      · right
        refine ⟨x :: l₁, l₂, by simp [heq], lt_trans hx hlt, ?_, hl2⟩
        intro y hy
        rcases List.mem_cons.mp hy with rfl | hy
        · exact hlt
        · exact hl1 y hy
    · rw [if_neg hx] at h
      rcases ih cur r h with ⟨rfl, hall⟩ | ⟨l₁, l₂, heq, hlt, hl1, hl2⟩
      · left
        refine ⟨rfl, ?_⟩
        intro y hy
        rcases List.mem_cons.mp hy with rfl | hy
        · exact le_of_not_lt hx
        · exact hall y hy
      · right
        refine ⟨x :: l₁, l₂, by simp [heq], hlt, ?_, hl2⟩
        intro y hy
        rcases List.mem_cons.mp hy with rfl | hy
        · exact lt_of_le_of_lt (le_of_not_lt hx) hlt
        · exact hl1 y hy

/-- Python max returns the first maximum of the key function. -/
theorem pyMaxBy_spec {α : Type} (f : α → ℚ) (l : List α) (r : α)
    (h : pyMaxBy f l = some r) : IsFirstMaxBy f l r := by
  cases l with
  | nil => simp [pyMaxBy] at h
  | cons x t =>
    simp only [pyMaxBy, Option.some.injEq] at h
    rcases foldl_max_spec f t x r h with ⟨rfl, hall⟩ | ⟨l₁, l₂, heq, hlt, hl1, hl2⟩
    · exact ⟨[], t, rfl, by simp, hall⟩
    · refine ⟨x :: l₁, l₂, by simp [heq], ?_, hl2⟩
      intro y hy
      rcases List.mem_cons.mp hy with rfl | hy
      · exact hlt
      · exact hl1 y hy

/-- Adding to the bucket dict never empties it. -/
theorem addBucket_ne_nil (bs : List (ℚ × List ℤ)) (k : ℚ) (p : ℤ) :
    addBucket bs k p ≠ [] := by
  cases bs with
  | nil => simp [addBucket]
  | cons b rest =>
    obtain ⟨k', ps⟩ := b
    unfold addBucket
    split <;> simp

/-- A non-empty entry list yields a non-empty bucket dict. -/
theorem buildBuckets_ne_nil (es : List Entry) (h : es ≠ []) :
    buildBuckets es ≠ [] := by
  have haux : ∀ (l : List Entry) (acc : List (ℚ × List ℤ)), acc ≠ [] →
      l.foldl (fun bs e => addBucket bs (pyRound e.sleep_hours 1) e.productivity)
        acc ≠ [] := by
    intro l
    induction l with
    | nil =>
      intro acc hacc
      exact hacc
    | cons x xs ih =>
      intro acc hacc
      simp only [List.foldl_cons]
      exact ih _ (addBucket_ne_nil _ _ _)
  cases es with
  | nil => exact absurd rfl h
  | cons e t =>
    show (e :: t).foldl _ [] ≠ []
    simp only [List.foldl_cons]
    exact haux t _ (addBucket_ne_nil _ _ _)

/-- Python max of a non-empty iterable exists. -/
theorem pyMaxBy_isSome {α : Type} (f : α → ℚ) (l : List α) (h : l ≠ []) :
    (pyMaxBy f l).isSome = true := by
  cases l with
  | nil => exact absurd rfl h
  | cons x t => simp [pyMaxBy]

/-- C6: on non-empty entries the endpoint selects a bucket that is the first
maximum of mean bucket productivity over the insertion-ordered buckets of
sleep hours rounded to one decimal, and returns its key with that mean
rounded to 2 decimals. -/
theorem best_sleep_range_first_max (es : List Entry) (h : es ≠ []) :
    (pyMaxBy bmean (buildBuckets es)).isSome = true ∧
    ∀ b, pyMaxBy bmean (buildBuckets es) = some b →
      IsFirstMaxBy bmean (buildBuckets es) b ∧
      best_sleep_range es =
        some { best_sleep_range := b.1
               average_productivity := pyRound (bmean b) 2 } := by
  refine ⟨pyMaxBy_isSome bmean _ (buildBuckets_ne_nil es h), ?_⟩
  intro b hb
  refine ⟨pyMaxBy_spec bmean _ b hb, ?_⟩
  unfold best_sleep_range
  rw [if_neg h, hb]

/-- Witness for C6 on buckets with tied means 6, 6 and then 2: the first of
the tied buckets (key 7.0) wins. -/
theorem best_sleep_range_first_max_witness :
    IsFirstMaxBy bmean (buildBuckets sampleTie) ((7 : ℚ), [(6 : ℤ)]) ∧
    best_sleep_range sampleTie =
      some { best_sleep_range := 7, average_productivity := 6 } := by
  have hb : buildBuckets sampleTie =
      [((7 : ℚ), [(6 : ℤ)]), (8, [6]), (5, [2])] := by
    norm_num [buildBuckets, sampleTie, addBucket, pyRound, pyRoundInt]
  have hm : pyMaxBy bmean (buildBuckets sampleTie) = some ((7 : ℚ), [(6 : ℤ)]) := by
    rw [hb]
    norm_num [pyMaxBy, bmean]
  have h := (best_sleep_range_first_max sampleTie (by decide)).2 _ hm
  refine ⟨h.1, h.2.trans ?_⟩
  have hbm : bmean ((7 : ℚ), [(6 : ℤ)]) = 6 := by norm_num [bmean]
  rw [hbm]
  norm_num [pyRound, pyRoundInt]

/-- Reading back a rendered digit recovers it. -/
theorem charDigit_digitChar (d : ℕ) (h : d < 10) :
    charDigit (digitChar d) = d := by
  interval_cases d <;> rfl

/-- Parsing inverts the decimal rendering of a natural number. -/
theorem parseNat_renderNat (n : ℕ) : parseNatChars (renderNat n) = n := by
  unfold renderNat parseNatChars
  split
  · subst n
    decide
  · rw [List.map_map]
    have hmap : ((Nat.digits 10 n).reverse).map (charDigit ∘ digitChar)
        = ((Nat.digits 10 n).reverse).map id :=
      List.map_congr_left fun a ha => by
        simpa using charDigit_digitChar a
          (Nat.digits_lt_base (by norm_num) (List.mem_reverse.mp ha))
    rw [hmap, List.map_id, List.reverse_reverse, Nat.ofDigits_digits]

/-- A run of zero digits contributes nothing. -/
theorem ofDigits_replicate_zero (k : ℕ) :
    Nat.ofDigits 10 (List.replicate k 0) = 0 := by
  induction k with
  | zero => rfl
  | succ m ih => simp [List.replicate_succ, Nat.ofDigits_cons, ih]

/-- Leading zero padding does not change the parsed value. -/
theorem parseNat_pad (w n : ℕ) : parseNatChars (pad w (renderNat n)) = n := by
  unfold pad parseNatChars
  rw [List.map_append, List.map_replicate]
  have h0 : charDigit '0' = 0 := rfl
  rw [h0, List.reverse_append, List.reverse_replicate]
  have happ : Nat.ofDigits 10 (((renderNat n).map charDigit).reverse
        ++ List.replicate (w - (renderNat n).length) 0)
      = Nat.ofDigits 10 (((renderNat n).map charDigit).reverse)
        + 10 ^ (((renderNat n).map charDigit).reverse).length
          * Nat.ofDigits 10 (List.replicate (w - (renderNat n).length) 0) := by
    exact_mod_cast Nat.ofDigits_append
  rw [happ, ofDigits_replicate_zero]
  have hr : Nat.ofDigits 10 ((renderNat n).map charDigit).reverse = n :=
    parseNat_renderNat n
  rw [hr]
  ring

/-- Parsing inverts the decimal rendering of an integer. -/
theorem parseInt_renderInt (i : ℤ) : parseIntChars (renderInt i) = i := by
  by_cases hi : i < 0
  · simp only [renderInt, if_pos hi]
    have hh : (('-' :: renderNat i.natAbs).head? = some '-') := rfl
    rw [parseIntChars, if_pos hh, List.tail_cons, parseNat_renderNat]
    omega
  · have h0 : 0 ≤ i := not_lt.mp hi
    simp only [renderInt, if_neg hi]
    rw [parseIntChars]
    have hhead : ¬((renderNat i.toNat).head? = some '-') := by
      cases hr : renderNat i.toNat with
      | nil => exact absurd hr (renderNat_ne_nil _)
      | cons c cs =>
        simp only [List.head?_cons, Option.some.injEq]
        intro hcontra
        subst hcontra
        have hb := renderNat_bounds i.toNat '-' (by rw [hr]; exact List.mem_cons_self _ _)
        revert hb
        decide
    rw [if_neg hhead, parseNat_renderNat]
    exact Int.toNat_of_nonneg h0

/-- Padding only adds zero characters. -/
theorem pad_chars (w : ℕ) (cs : List Char) (c : Char) (h : c ∈ pad w cs) :
    c = '0' ∨ c ∈ cs := by
  unfold pad at h
  rcases List.mem_append.mp h with h | h
  · exact Or.inl (List.eq_of_mem_replicate h)
  · exact Or.inr h

/-- A padded rendered natural number is all digits. -/
theorem pad_renderNat_bounds (w n : ℕ) :
    ∀ c ∈ pad w (renderNat n), 48 ≤ c.toNat ∧ c.toNat ≤ 57 := by
  intro c h
  rcases pad_chars w (renderNat n) c h with rfl | h
  · decide
  · exact renderNat_bounds n c h

/-- A character of an intercalation is the separator or lies in one part. -/
theorem mem_intercalate_single {x c : Char} :
    ∀ ls : List (List Char), c ∈ List.intercalate [x] ls →
      c = x ∨ ∃ l ∈ ls, c ∈ l
  | [] => by simp [List.intercalate]
  | [a] => by
    intro h
    right
    refine ⟨a, by simp, ?_⟩
    simpa [List.intercalate] using h
  | a :: b :: t => by
    intro h
    have hrw : List.intercalate [x] (a :: b :: t)
        = a ++ x :: List.intercalate [x] (b :: t) := by
      simp [List.intercalate, List.intersperse_cons₂]
    rw [hrw] at h
    rcases List.mem_append.mp h with h | h
    · exact Or.inr ⟨a, by simp, h⟩
    · rcases List.mem_cons.mp h with rfl | h
      · exact Or.inl rfl
      · rcases mem_intercalate_single (b :: t) h with h | ⟨l, hl, hcl⟩
        · exact Or.inl h
        · exact Or.inr ⟨l, List.mem_cons_of_mem a hl, hcl⟩

/-- A rendered date consists of hyphens and digits. -/
theorem renderDate_chars (d : PyDate) :
    ∀ c ∈ renderDate d, c = '-' ∨ (48 ≤ c.toNat ∧ c.toNat ≤ 57) := by
  intro c hc
  unfold renderDate at hc
  rcases mem_intercalate_single _ hc with rfl | ⟨l, hl, hcl⟩
  · exact Or.inl rfl
  · rcases List.mem_cons.mp hl with rfl | hl
    · exact Or.inr (pad_renderNat_bounds 4 d.year c hcl)
    · rcases List.mem_cons.mp hl with rfl | hl
      · exact Or.inr (pad_renderNat_bounds 2 d.month c hcl)
      · rcases List.mem_cons.mp hl with rfl | hl
        · exact Or.inr (pad_renderNat_bounds 2 d.day c hcl)
        · simp at hl

/-- Parsing inverts the date rendering. -/
theorem parseDate_renderDate (d : PyDate) :
    parseDate (renderDate d) = some d := by
  obtain ⟨y, m, dd⟩ := d
  unfold parseDate renderDate
  have hnotin : ∀ l ∈ [pad 4 (renderNat y), pad 2 (renderNat m),
      pad 2 (renderNat dd)], '-' ∉ l := by
    intro l hl hmem
    have hdig : 48 ≤ ('-').toNat ∧ ('-').toNat ≤ 57 := by
      rcases List.mem_cons.mp hl with rfl | hl
      · exact pad_renderNat_bounds 4 y '-' hmem
      · rcases List.mem_cons.mp hl with rfl | hl
        · exact pad_renderNat_bounds 2 m '-' hmem
        · rcases List.mem_cons.mp hl with rfl | hl
          · exact pad_renderNat_bounds 2 dd '-' hmem
          · simp at hl
    revert hdig
    decide
  rw [List.splitOn_intercalate [pad 4 (renderNat y), pad 2 (renderNat m),
    pad 2 (renderNat dd)] '-' hnotin (by simp)]
  simp [parseNat_pad]

/-- A rendered rational consists of a minus sign, a slash and digits. -/
theorem renderRat_chars (q : ℚ) :
    ∀ c ∈ renderRat q, c = '-' ∨ c = '/' ∨ (48 ≤ c.toNat ∧ c.toNat ≤ 57) := by
  intro c hc
  unfold renderRat at hc
  rcases mem_intercalate_single _ hc with rfl | ⟨l, hl, hcl⟩
  · exact Or.inr (Or.inl rfl)
  · rcases List.mem_cons.mp hl with rfl | hl
    · rcases renderInt_chars q.num c hcl with h | h
      · exact Or.inl h
      · exact Or.inr (Or.inr h)
    · rcases List.mem_cons.mp hl with rfl | hl
      · exact Or.inr (Or.inr (renderNat_bounds q.den c hcl))
      · simp at hl

/-- Parsing inverts the rational cell rendering. -/
theorem parseRat_renderRat (q : ℚ) : parseRat (renderRat q) = some q := by
  unfold parseRat renderRat
  have hnotin : ∀ l ∈ [renderInt q.num, renderNat q.den], '/' ∉ l := by
    intro l hl hmem
    rcases List.mem_cons.mp hl with rfl | hl
    · rcases renderInt_chars q.num '/' hmem with h | h
      · exact absurd h (by decide)
      · exact absurd h (by decide)
    · rcases List.mem_cons.mp hl with rfl | hl
      · exact absurd (renderNat_bounds q.den '/' hmem) (by decide)
      · simp at hl
  rw [List.splitOn_intercalate [renderInt q.num, renderNat q.den] '/' hnotin
    (by simp)]
  simp only [parseInt_renderInt, parseNat_renderNat, Option.some.injEq]
  exact Rat.num_div_den q

/-- A data row contains only commas, field punctuation and digits — in
particular no line break and no quote. -/
theorem csvLine_entry_chars (e : Entry) :
    ∀ c ∈ csvLine (entryFields e),
      c = ',' ∨ c = '-' ∨ c = '/' ∨ (48 ≤ c.toNat ∧ c.toNat ≤ 57) := by
  intro c hc
  unfold csvLine at hc
  rcases mem_intercalate_single (entryFields e) hc with rfl | ⟨l, hl, hcl⟩
  · exact Or.inl rfl
  · unfold entryFields at hl
    rcases List.mem_cons.mp hl with rfl | hl
    · rcases renderDate_chars e.date c hcl with h | h
      · exact Or.inr (Or.inl h)
      · exact Or.inr (Or.inr (Or.inr h))
    · rcases List.mem_cons.mp hl with rfl | hl
      · rcases renderRat_chars e.sleep_hours c hcl with h | h | h
        · exact Or.inr (Or.inl h)
        · exact Or.inr (Or.inr (Or.inl h))
        · exact Or.inr (Or.inr (Or.inr h))
      · rcases List.mem_cons.mp hl with rfl | hl
        · rcases renderInt_chars e.mood c hcl with h | h
          · exact Or.inr (Or.inl h)
          · exact Or.inr (Or.inr (Or.inr h))
        · rcases List.mem_cons.mp hl with rfl | hl
          · rcases renderInt_chars e.productivity c hcl with h | h
            · exact Or.inr (Or.inl h)
            · exact Or.inr (Or.inr (Or.inr h))
          · simp at hl

/-- Parsing a written data row recovers the entry tuple. -/
theorem parseRow_entryFields (e : Entry) :
    parseRow (csvLine (entryFields e)) =
      some (e.date, e.sleep_hours, e.mood, e.productivity) := by
  unfold parseRow csvLine entryFields
  have hnotin : ∀ l ∈ [renderDate e.date, renderRat e.sleep_hours,
      renderInt e.mood, renderInt e.productivity], ',' ∉ l := by
    intro l hl hmem
    rcases List.mem_cons.mp hl with rfl | hl
    · rcases renderDate_chars e.date ',' hmem with h | h
      · exact absurd h (by decide)
      · exact absurd h (by decide)
    · rcases List.mem_cons.mp hl with rfl | hl
      · rcases renderRat_chars e.sleep_hours ',' hmem with h | h | h
        · exact absurd h (by decide)
        · exact absurd h (by decide)
        · exact absurd h (by decide)
      · rcases List.mem_cons.mp hl with rfl | hl
        · rcases renderInt_chars e.mood ',' hmem with h | h
          · exact absurd h (by decide)
          · exact absurd h (by decide)
        · rcases List.mem_cons.mp hl with rfl | hl
          · rcases renderInt_chars e.productivity ',' hmem with h | h
            · exact absurd h (by decide)
            · exact absurd h (by decide)
          · simp at hl
  rw [List.splitOn_intercalate [renderDate e.date, renderRat e.sleep_hours,
    renderInt e.mood, renderInt e.productivity] ',' hnotin (by simp)]
  simp [parseDate_renderDate, parseRat_renderRat, parseInt_renderInt]

/-- Stripping the carriage return a written row ends with recovers it. -/
theorem stripCR_concat (cs : List Char) : stripCR (cs ++ ['\x0d']) = some cs := by
  unfold stripCR
  rw [List.getLast?_concat]
  simp [List.dropLast_concat]

/-- Parsing the written data rows in order recovers all entry tuples. -/
theorem parseRows_map (es : List Entry) :
    parseRows (es.map fun e => csvLine (entryFields e) ++ ['\x0d']) =
      some (es.map fun e => (e.date, e.sleep_hours, e.mood, e.productivity)) := by
  induction es with
  | nil => rfl
  | cons e t ih =>
    simp only [List.map_cons, parseRows]
    rw [stripCR_concat]
    simp [parseRow_entryFields, ih]

/-- C7: the exported CSV starts with the fixed header row
Date, Sleep Hours, Mood, Productivity, and parsing its data rows
reproduces exactly the entry tuples in query order. -/
theorem export_csv_roundtrip (es : List Entry) :
    ((export_csv es).splitOn '\x0a').head? =
      some (csvLine headerFields ++ ['\x0d']) ∧
    parse_csv (export_csv es) =
      some (es.map fun e => (e.date, e.sleep_hours, e.mood, e.productivity)) := by
  have hsafe : ∀ l ∈ ((headerFields :: es.map entryFields).map
      fun fs => csvLine fs ++ ['\x0d']) ++ [([] : List Char)], '\x0a' ∉ l := by
    intro l hl
    rcases List.mem_append.mp hl with hl | hl
    · obtain ⟨fs, hfs, rfl⟩ := List.mem_map.mp hl
      intro hmem
      rcases List.mem_append.mp hmem with hmem | hmem
      · rcases List.mem_cons.mp hfs with rfl | hfs
        · revert hmem
          decide
        · obtain ⟨e, _, rfl⟩ := List.mem_map.mp hfs
          rcases csvLine_entry_chars e '\x0a' hmem with h | h | h | h <;>
            exact absurd h (by decide)
      · have := List.mem_singleton.mp hmem
        exact absurd this (by decide)
    · have := List.mem_singleton.mp hl
      subst this
      simp
  have hsplit : (export_csv es).splitOn '\x0a' =
      ((headerFields :: es.map entryFields).map fun fs => csvLine fs ++ ['\x0d'])
        ++ [([] : List Char)] := by
    unfold export_csv
    exact List.splitOn_intercalate _ '\x0a' hsafe (by simp)
  constructor
  · rw [hsplit]
    simp
  · simp only [parse_csv]
    rw [hsplit]
    rw [List.getLast?_concat]
    simp only [List.map_cons, List.dropLast_concat, List.map_map, if_true]
    simpa [Function.comp] using parseRows_map es

end LifeAnalytics
